import Mathlib

/-! nolus-core: tax parameters and the legacy params-subspace migration

Shallow embedding of

* `x/tax/types/params.go`: the `Params` set of the tax module, its four field
  validators, `Validate`, `DefaultParams`, `ParamSetPairs`, `ParamKeyTable`;
* `app/upgrades/v05/legacy_subspaces.go`: `getLegacySubspaces`.

Go values of type `error` are `Option Error` (`none` is `nil`).  A Go panic is a
`Fault`; the keeper state reached when the panic is raised is kept next to it.
Functions of other packages which the two files call are either parameters
(`Collaborators`, `LegacyKeyTables`) or, for the params keeper, modelled from
the specification (section `Keeper`).
-/

namespace Nolus

/-! ## Errors and dynamically typed values -/

/-- Go `error` values that the tax parameter validators can produce. -/
inductive Error where
  /-- `errors.New(text)` and `fmt.Errorf(...)`: an error that is just its text. -/
  | new (text : String)
  /-- Modelled from the spec: the `InvalidRate` sentinel `ErrInvalidFeeRate`,
  declared in the package's errors file. -/
  | ErrInvalidFeeRate
  /-- Modelled from the spec: the `InvalidAddress` sentinel `ErrInvalidAddress`,
  declared in the package's errors file. -/
  | ErrInvalidAddress
  /-- `sdkerrors.Wrap(err, description)`. -/
  | Wrap (err : Error) (description : String)
  deriving DecidableEq, Repr

/-- A Go `interface{}` value as the validators see it: its dynamic type and
payload.  `int32` carries the integer (the validators do no arithmetic on it, so
the payload is an unbounded `Int`, of which the int32 values are a part),
`string` the text; every other dynamic type is represented by its `%T` name. -/
inductive Value where
  | int32 (v : Int)
  | string (s : String)
  | other (typeName : String)
  deriving DecidableEq, Repr

/-- The `%T` rendering of a value's dynamic type. -/
def Value.typeName : Value → String
  | .int32 _ => "int32"
  | .string _ => "string"
  | .other t => t

/-- The error built by `fmt.Errorf("invalid parameter type: %T", v)`. -/
def invalidParameterType (v : Value) : Error :=
  .new ("invalid parameter type: " ++ v.typeName)

/-! ## Collaborators of the validators -/

/-- The two cosmos-sdk functions the validators delegate to.  They are
parameters of the embedding.

* `AccAddressFromBech32 s` is `none` when `s` parses as an account address and
  `some msg` when the parse fails, `msg` being `err.Error()` (the only thing the
  caller reads from the failure);
* `ValidateDenom s` is the error returned by `sdk.ValidateDenom(s)`. -/
structure Collaborators where
  AccAddressFromBech32 : String → Option String
  ValidateDenom : String → Option Error

/-! ## `strings.TrimSpace` -/

/-- Go `unicode.IsSpace`: the white space characters `strings.TrimSpace` removes. -/
def isSpace (c : Char) : Bool :=
  c = '\t' || c = '\n' || c = Char.ofNat 0x0B || c = Char.ofNat 0x0C || c = '\r' || c = ' '
    || c = Char.ofNat 0x85 || c = Char.ofNat 0xA0 || c = Char.ofNat 0x1680
    || (0x2000 ≤ c.toNat && c.toNat ≤ 0x200A)
    || c = Char.ofNat 0x2028 || c = Char.ofNat 0x2029 || c = Char.ofNat 0x202F
    || c = Char.ofNat 0x205F || c = Char.ofNat 0x3000

/-- Go `strings.TrimSpace` on the characters of a string: leading and trailing
white space removed. -/
def trimSpaceChars (cs : List Char) : List Char :=
  ((cs.dropWhile isSpace).reverse.dropWhile isSpace).reverse

/-- Go `strings.TrimSpace`. -/
def TrimSpace (s : String) : String :=
  String.mk (trimSpaceChars s.data)

/-- A string that is empty or consists only of white space. -/
def isBlank (s : String) : Bool :=
  s.data.all isSpace

/-! ## `x/tax/types/params.go` -/

def KeyFeeRate : String := "FeeRate"
def DefaultFeeRate : Int := 40

def KeyFeeCaps : String := "FeeCaps"
def DefaultFeeCaps : String := "1000unls"

def KeyContractAddress : String := "ContractAddress"
def DefaultContractAddress : String :=
  "nolus14hj2tavq8fpesdwxxcu44rty3hh90vhujrvcmstl4zr3txmfvw9s0k0puz"

def KeyBaseDenom : String := "BaseDenom"
/-- The value of `sdk.DefaultBondDenom`. -/
def DefaultBaseDenom : String := "stake"

/-- The `Params` struct of the tax module. -/
structure Params where
  FeeRate : Int
  FeeCaps : String
  ContractAddress : String
  BaseDenom : String
  deriving DecidableEq, Repr

/-- `NewParams`. -/
def NewParams (feeRate : Int) (feeCaps contractAddress baseDenom : String) : Params :=
  { FeeRate := feeRate, FeeCaps := feeCaps, ContractAddress := contractAddress,
    BaseDenom := baseDenom }

/-- `DefaultParams`. -/
def DefaultParams : Params :=
  NewParams DefaultFeeRate DefaultFeeCaps DefaultContractAddress DefaultBaseDenom

/-- `validateFeeRate`. -/
def validateFeeRate (v : Value) : Option Error :=
  match v with
  | .int32 feeRate =>
    if feeRate < 0 ∨ feeRate > 100 then some Error.ErrInvalidFeeRate else none
  | _ => some (invalidParameterType v)

/-- `validateFeeCaps`. -/
def validateFeeCaps (v : Value) : Option Error :=
  match v with
  | .string _ => none
  | _ => some (invalidParameterType v)

/-- `validateContractAddress`. -/
def validateContractAddress (C : Collaborators) (v : Value) : Option Error :=
  match v with
  | .string contractAddress =>
    match C.AccAddressFromBech32 contractAddress with
    | some msg => some (Error.Wrap Error.ErrInvalidAddress msg)
    | none => none
  | _ => some (invalidParameterType v)

/-- `validateBaseDenom`. -/
def validateBaseDenom (C : Collaborators) (v : Value) : Option Error :=
  match v with
  | .string baseDenom =>
    if TrimSpace baseDenom = "" then some (Error.new "base denom cannot be blank")
    else
      match C.ValidateDenom baseDenom with
      | some err => some err
      | none => none
  | _ => some (invalidParameterType v)

/-- `Params.Validate`. -/
def Params.Validate (C : Collaborators) (p : Params) : Option Error :=
  match validateFeeRate (.int32 p.FeeRate) with
  | some err => some err
  | none =>
    match validateFeeCaps (.string p.FeeCaps) with
    | some err => some err
    | none =>
      match validateContractAddress C (.string p.ContractAddress) with
      | some err => some err
      | none =>
        match validateBaseDenom C (.string p.BaseDenom) with
        | some err => some err
        | none => none

/-! ## Key tables -/

/-- `paramtypes.ParamSetPair`: key, the current value of the storage slot, and
the validator attached to the slot. -/
structure ParamSetPair where
  Key : String
  Value : Nolus.Value
  ValidatorFn : Nolus.Value → Option Error

/-- `paramtypes.NewParamSetPair`. -/
def NewParamSetPair (key : String) (value : Value) (vfn : Value → Option Error) :
    ParamSetPair :=
  { Key := key, Value := value, ValidatorFn := vfn }

/-- `Params.ParamSetPairs`. -/
def Params.ParamSetPairs (C : Collaborators) (p : Params) : List ParamSetPair :=
  [ NewParamSetPair KeyFeeRate (.int32 p.FeeRate) validateFeeRate,
    NewParamSetPair KeyFeeCaps (.string p.FeeCaps) validateFeeCaps,
    NewParamSetPair KeyContractAddress (.string p.ContractAddress) (validateContractAddress C),
    NewParamSetPair KeyBaseDenom (.string p.BaseDenom) (validateBaseDenom C) ]

/-- Modelled from the spec: the Schema (Key Table) of the params library, an
ordered catalog of field descriptors built from a Parameter Set's triples.  Each
entry keeps the field key and the type of the slot; two key tables are compared
structurally. -/
structure KeyTable where
  m : List (String × String)
  deriving DecidableEq, Repr

/-- Modelled from the spec: `paramtypes.NewKeyTable()`, the catalog with no entry. -/
def NewKeyTable : KeyTable := { m := [] }

/-- Modelled from the spec: `KeyTable.RegisterParamSet`, which adds one entry per
triple of the Parameter Set, in declaration order. -/
def KeyTable.RegisterParamSet (t : KeyTable) (pairs : List ParamSetPair) : KeyTable :=
  { m := t.m ++ pairs.map (fun psp => (psp.Key, psp.Value.typeName)) }

/-- `ParamKeyTable` of the tax module; `&Params{}` is the zero value. -/
def ParamKeyTable (C : Collaborators) : KeyTable :=
  NewKeyTable.RegisterParamSet
    (Params.ParamSetPairs C { FeeRate := 0, FeeCaps := "", ContractAddress := "", BaseDenom := "" })

/-- The key-table builders of other packages that `getLegacySubspaces` calls:
`authtypes.ParamKeyTable()`, `banktypes.ParamKeyTable()`, ...,
`govv1.ParamKeyTable()`, `icacontrollertypes.ParamKeyTable()` and
`paramstypes.ConsensusParamsKeyTable()`.  They are parameters of the embedding. -/
structure LegacyKeyTables where
  auth : KeyTable
  bank : KeyTable
  staking : KeyTable
  mint : KeyTable
  distr : KeyTable
  slashing : KeyTable
  crisis : KeyTable
  govv1 : KeyTable
  icacontroller : KeyTable
  ConsensusParamsKeyTable : KeyTable

/-! ## Module names

The names of the modules, as their packages declare them. -/

def authtypes.ModuleName : String := "auth"
def taxmoduletypes.ModuleName : String := "tax"
def banktypes.ModuleName : String := "bank"
def stakingtypes.ModuleName : String := "staking"
def minttypes.ModuleName : String := "mint"
def distrtypes.ModuleName : String := "distribution"
def slashingtypes.ModuleName : String := "slashing"
def crisistypes.ModuleName : String := "crisis"
def govtypes.ModuleName : String := "gov"
def icacontrollertypes.SubModuleName : String := "icacontroller"
def baseapp.Paramspace : String := "baseapp"

/-! ## Keeper

The params keeper and its subspaces belong to the params library.  The model
follows the specification: a Registry maps namespaces to Subspaces, a Subspace is
Unbound or Bound to one Schema. -/

/-- A panic raised by the params library. -/
inductive Fault where
  /-- Rebinding a Bound subspace with a structurally different schema. -/
  | SchemaConflict
  deriving DecidableEq, Repr

/-- Modelled from the spec: a `paramstypes.Subspace` value.  The Go value shares
its key table with the registry entry of the same name, so the value is a handle:
its binding state is read from, and written to, the keeper. -/
structure Subspace where
  name : String
  deriving DecidableEq, Repr

/-- Modelled from the spec: the Registry held by `paramskeeper.Keeper`.

* `names`: the registered namespaces, in the order `GetSubspaces` enumerates them;
* `table n`: the schema bound to the subspace registered as `n` (`none`: Unbound);
* `calls`: the names on which `WithKeyTable` has been called so far (a log that
  no operation reads). -/
structure Keeper where
  names : List String
  table : String → Option KeyTable
  calls : List String

/-- `Subspace.Name`. -/
def Subspace.Name (s : Subspace) : String := s.name

/-- Modelled from the spec: `Keeper.GetSubspaces`, the spec's `All()`: every
registered Subspace. -/
def Keeper.GetSubspaces (k : Keeper) : List Subspace :=
  k.names.map Subspace.mk

/-- Modelled from the spec: `Subspace.HasKeyTable`, the spec's `HasSchema()`. -/
def Keeper.HasKeyTable (k : Keeper) (s : Subspace) : Bool :=
  (k.table s.name).isSome

/-- Modelled from the spec: `Subspace.WithKeyTable`, the spec's `Bind(schema)`:
Unbound becomes Bound; on a Bound subspace an equal schema is a no-op and a
different one is a `SchemaConflict`. -/
def Keeper.WithKeyTable (k : Keeper) (s : Subspace) (table : KeyTable) :
    Keeper × Except Fault Subspace :=
  let k1 : Keeper := { k with calls := k.calls ++ [s.name] }
  match k.table s.name with
  | none => ({ k1 with table := Function.update k.table s.name (some table) }, .ok s)
  | some bound => if bound = table then (k1, .ok s) else (k1, .error Fault.SchemaConflict)

/-- Modelled from the spec: `Keeper.Subspace`, the spec's `Register(namespace)`:
returns the existing Subspace of that namespace, or creates an Unbound one. -/
def Keeper.Subspace (k : Keeper) (s : String) : Keeper × Subspace :=
  if s ∈ k.names then (k, { name := s })
  else ({ k with names := k.names ++ [s], table := Function.update k.table s none },
        { name := s })

/-! ## `app/upgrades/v05/legacy_subspaces.go` -/

/-- The `switch subspace.Name()` of `getLegacySubspaces`: the key table the case
of that name assigns, `none` for the `default: continue` branch. -/
def legacyKeyTable (C : Collaborators) (T : LegacyKeyTables) (name : String) :
    Option KeyTable :=
  if name = authtypes.ModuleName then some T.auth
  else if name = taxmoduletypes.ModuleName then some (ParamKeyTable C)
  else if name = banktypes.ModuleName then some T.bank
  else if name = stakingtypes.ModuleName then some T.staking
  else if name = minttypes.ModuleName then some T.mint
  else if name = distrtypes.ModuleName then some T.distr
  else if name = slashingtypes.ModuleName then some T.slashing
  else if name = crisistypes.ModuleName then some T.crisis
  else if name = govtypes.ModuleName then some T.govv1
  else if name = icacontrollertypes.SubModuleName then some T.icacontroller
  else none

/-- The `for _, subspace := range ...` loop of `getLegacySubspaces` over the
subspaces still to visit.  The second component is the panic that ended the
loop, if any. -/
def migrateLoop (C : Collaborators) (T : LegacyKeyTables) :
    List Subspace → Keeper → Keeper × Option Fault
  | [], k => (k, none)
  | subspace :: rest, k =>
    match legacyKeyTable C T subspace.Name with
    | none => migrateLoop C T rest k
    | some keyTable =>
      if !k.HasKeyTable subspace then
        match k.WithKeyTable subspace keyTable with
        | (k1, .error e) => (k1, some e)
        | (k1, .ok _) => migrateLoop C T rest k1
      else migrateLoop C T rest k

/-- `getLegacySubspaces`: the keeper as the call leaves it, and the returned
subspace or the panic. -/
def getLegacySubspaces (C : Collaborators) (T : LegacyKeyTables) (paramsKeeper : Keeper) :
    Keeper × Except Fault Subspace :=
  match migrateLoop C T paramsKeeper.GetSubspaces paramsKeeper with
  | (k, some e) => (k, .error e)
  | (k, none) =>
    let r := k.Subspace baseapp.Paramspace
    r.1.WithKeyTable r.2 T.ConsensusParamsKeyTable

/-! ## The lookup table of the specification -/

/-- The ten names handled by the switch of `getLegacySubspaces`, as the
specification lists them. -/
def listedNames : List String :=
  ["auth", "tax", "bank", "staking", "mint", "distribution", "slashing", "crisis", "gov",
   "icacontroller"]

/-- The namespace-to-schema-builder lookup table of the specification: each
listed name with the key table its builder produces. -/
def legacyBuilders (C : Collaborators) (T : LegacyKeyTables) : List (String × KeyTable) :=
  [("auth", T.auth), ("tax", ParamKeyTable C), ("bank", T.bank), ("staking", T.staking),
   ("mint", T.mint), ("distribution", T.distr), ("slashing", T.slashing),
   ("crisis", T.crisis), ("gov", T.govv1), ("icacontroller", T.icacontroller)]

/-! ## Sample inputs -/

/-- A sample of key tables for the builders of other packages, one entry each. -/
def sampleKeyTables : LegacyKeyTables :=
  { auth := { m := [("MaxMemoCharacters", "uint64")] },
    bank := { m := [("DefaultSendEnabled", "bool")] },
    staking := { m := [("MaxValidators", "uint32")] },
    mint := { m := [("MintDenom", "string")] },
    distr := { m := [("withdrawaddrenabled", "bool")] },
    slashing := { m := [("SignedBlocksWindow", "int64")] },
    crisis := { m := [("ConstantFee", "types.Coin")] },
    govv1 := { m := [("depositparams", "v1.DepositParams")] },
    icacontroller := { m := [("ControllerEnabled", "bool")] },
    ConsensusParamsKeyTable := { m := [("BlockParams", "types.BlockParams")] } }

/-- A collaborator pair that accepts every string. -/
def acceptAll : Collaborators :=
  { AccAddressFromBech32 := fun _ => none, ValidateDenom := fun _ => none }

/-- The registry of the specification's scenario: `auth`, `bank` and
`custom_unlisted`, all Unbound. -/
def scenarioKeeper : Keeper :=
  { names := ["auth", "bank", "custom_unlisted"], table := fun _ => none, calls := [] }

/-- A registry in which the consensus-parameters namespace is registered and
Unbound. -/
def baseappUnboundKeeper : Keeper :=
  { names := ["baseapp"], table := fun _ => none, calls := [] }

/-- A registry in which the consensus-parameters namespace is already Bound to
the consensus key table. -/
def baseappBoundKeeper : Keeper :=
  { names := ["baseapp"],
    table := fun n => if n = "baseapp" then some sampleKeyTables.ConsensusParamsKeyTable else none,
    calls := [] }

/-- A registry in which the consensus-parameters namespace is Bound to another
key table, that of `auth`. -/
def baseappOtherKeeper : Keeper :=
  { names := ["baseapp"],
    table := fun n => if n = "baseapp" then some sampleKeyTables.auth else none,
    calls := [] }

/-- The outcome the specification gives for a run of validators: the first
failure met, in order; success when there is none. -/
def firstFailure : List (Option Error) → Option Error
  | [] => none
  | some err :: _ => some err
  | none :: rest => firstFailure rest

/-! ## Sample collaborators -/

/-- The Bech32 alphabet. -/
def bech32Charset : List Char := "qpzry9x8gf2tvdw0s3jn54khce6mua7l".data

/-- One round of the Bech32 checksum polynomial. -/
def bech32PolymodStep (chk v : Nat) : Nat :=
  let b := chk >>> 25
  let c0 := ((chk &&& 0x1ffffff) <<< 5) ^^^ v
  let c1 := if b &&& 1 ≠ 0 then c0 ^^^ 0x3b6a57b2 else c0
  let c2 := if b &&& 2 ≠ 0 then c1 ^^^ 0x26508e6d else c1
  let c3 := if b &&& 4 ≠ 0 then c2 ^^^ 0x1ea119fa else c2
  let c4 := if b &&& 8 ≠ 0 then c3 ^^^ 0x3d4233dd else c3
  if b &&& 16 ≠ 0 then c4 ^^^ 0x2a1462b3 else c4

/-- The 5-bit values of the data part, `none` when a character is outside the
alphabet. -/
def bech32Values : List Char → Option (List Nat)
  | [] => some []
  | c :: cs =>
    match bech32Charset.indexOf? c, bech32Values cs with
    | some i, some r => some (i :: r)
    | _, _ => none

/-- Whether the data part carries a valid Bech32 checksum for the
human-readable part. -/
def bech32ChecksumOk (hrp data : List Char) : Bool :=
  match bech32Values data with
  | some d =>
    (hrp.map (fun (c : Char) => c.toNat >>> 5) ++ [0] ++ hrp.map (fun (c : Char) => c.toNat &&& 31) ++ d).foldl
      bech32PolymodStep 1 == 1
  | none => false

/-- A sample address check: accepts `hrp ++ "1" ++ data` when the
human-readable part is `nolus` and the data part has at least the six checksum
characters and a valid Bech32 checksum. -/
def sampleAccAddressFromBech32 (address : String) : Option String :=
  let data := (address.data.reverse.takeWhile (fun c => c ≠ '1')).reverse
  let hrp := ((address.data.reverse.dropWhile (fun c => c ≠ '1')).drop 1).reverse
  if data.length < 6 ∨ ¬ bech32ChecksumOk hrp data then some "decoding bech32 failed"
  else if hrp ≠ "nolus".data then some "invalid Bech32 prefix"
  else none

/-- A sample denomination check: accepts a letter followed by 2 to 127
characters among letters, digits and `/ : . _ -`. -/
def sampleValidateDenom (denom : String) : Option Error :=
  match denom.data with
  | c :: rest =>
    if c.isAlpha ∧ 2 ≤ rest.length ∧ rest.length ≤ 127 ∧
        rest.all (fun d => d.isAlphanum || d = '/' || d = ':' || d = '.' || d = '_' || d = '-')
    then none
    else some (Error.new ("invalid denom: " ++ denom))
  | [] => some (Error.new ("invalid denom: " ++ denom))

/-- The sample collaborators. -/
def sampleCollaborators : Collaborators :=
  { AccAddressFromBech32 := sampleAccAddressFromBech32, ValidateDenom := sampleValidateDenom }

/-- The sample address check of a process that keeps the account prefix
`cosmos`: the same Bech32 check, the human-readable part expected being
`cosmos`. -/
def cosmosAccAddressFromBech32 (address : String) : Option String :=
  let data := (address.data.reverse.takeWhile (fun c => c ≠ '1')).reverse
  let hrp := ((address.data.reverse.dropWhile (fun c => c ≠ '1')).drop 1).reverse
  if data.length < 6 ∨ ¬ bech32ChecksumOk hrp data then some "decoding bech32 failed"
  else if hrp ≠ "cosmos".data then some "invalid Bech32 prefix"
  else none

/-- The sample collaborators of a process that keeps the account prefix
`cosmos`. -/
def cosmosCollaborators : Collaborators :=
  { AccAddressFromBech32 := cosmosAccAddressFromBech32, ValidateDenom := sampleValidateDenom }

/-- A registry in which `auth` is already Bound, to a key table that is not the
one the switch pairs with `auth`, and `bank` is Unbound. -/
def authBoundKeeper : Keeper :=
  { names := ["auth", "bank"],
    table := fun n =>
      if n = "auth" then some { m := [("MaxMemoCharacters", "uint64"), ("TxSigLimit", "uint64")] }
      else none,
    calls := [] }

/-! ## The migration loop -/

/-- On an Unbound subspace `WithKeyTable` binds the schema and returns. -/
theorem withKeyTable_unbound (k : Keeper) (s : Subspace) (t : KeyTable)
    (h : k.table s.name = none) :
    k.WithKeyTable s t =
      ({ names := k.names, table := Function.update k.table s.name (some t),
         calls := k.calls ++ [s.name] }, .ok s) := by
  simp [Keeper.WithKeyTable, h]

/-- One iteration of the loop, with the guard and the bind spelled out. -/
theorem migrateLoop_cons (C : Collaborators) (T : LegacyKeyTables) (s : Subspace)
    (rest : List Subspace) (k : Keeper) :
    migrateLoop C T (s :: rest) k =
      match legacyKeyTable C T s.name with
      | none => migrateLoop C T rest k
      | some kt =>
        match k.table s.name with
        | some _ => migrateLoop C T rest k
        | none =>
          migrateLoop C T rest
            { names := k.names, table := Function.update k.table s.name (some kt),
              calls := k.calls ++ [s.name] } := by
  rw [migrateLoop]
  simp only [Subspace.Name]
  cases hl : legacyKeyTable C T s.name with
  | none => rfl
  | some kt =>
    cases ht : k.table s.name with
    | none => simp [Keeper.HasKeyTable, ht, withKeyTable_unbound]
    | some b => simp [Keeper.HasKeyTable, ht]

/-- The loop raises no panic. -/
theorem migrateLoop_fault (C : Collaborators) (T : LegacyKeyTables) (l : List Subspace)
    (k : Keeper) : (migrateLoop C T l k).2 = none := by
  induction l generalizing k with
  | nil => rfl
  | cons s rest ih =>
    rw [migrateLoop_cons]
    cases legacyKeyTable C T s.name with
    | none => exact ih k
    | some kt =>
      cases k.table s.name with
      | none => exact ih _
      | some b => exact ih k

/-- The loop registers and removes no namespace. -/
theorem migrateLoop_names (C : Collaborators) (T : LegacyKeyTables) (l : List Subspace)
    (k : Keeper) : (migrateLoop C T l k).1.names = k.names := by
  induction l generalizing k with
  | nil => rfl
  | cons s rest ih =>
    rw [migrateLoop_cons]
    cases legacyKeyTable C T s.name with
    | none => exact ih k
    | some kt =>
      cases k.table s.name with
      | none => exact ih _
      | some b => exact ih k

/-- The binding of a name after the loop has visited the subspaces of `l`. -/
theorem migrateLoop_table (C : Collaborators) (T : LegacyKeyTables) (l : List Subspace)
    (k : Keeper) (n : String) :
    (migrateLoop C T l k).1.table n =
      if Subspace.mk n ∈ l then
        (match k.table n with
         | some t => some t
         | none => legacyKeyTable C T n)
      else k.table n := by
  induction l generalizing k with
  | nil => simp [migrateLoop]
  | cons s rest ih =>
    rw [migrateLoop_cons]
    cases hl : legacyKeyTable C T s.name with
    | none =>
      simp only [ih k, List.mem_cons]
      by_cases hn : Subspace.mk n = s
      · subst hn
        simp only [true_or, if_true]
        split
        · cases hk : k.table n <;> simp_all
        · cases hk : k.table n <;> simp_all
      · simp [hn]
    | some kt =>
      cases ht : k.table s.name with
      | some b =>
        simp only [ih k, List.mem_cons]
        by_cases hn : Subspace.mk n = s
        · subst hn
          simp_all
        · simp [hn]
      | none =>
        simp only [ih, List.mem_cons]
        by_cases hn : Subspace.mk n = s
        · subst hn
          simp_all
        · have hne : n ≠ s.name := fun h => hn (by cases s; simp_all)
          simp [hn, Function.update_noteq hne]

/-- The switch takes its default branch exactly on the names outside the ten
listed ones. -/
theorem legacyKeyTable_eq_none_iff (C : Collaborators) (T : LegacyKeyTables) (n : String) :
    legacyKeyTable C T n = none ↔ n ∉ listedNames := by
  unfold legacyKeyTable listedNames authtypes.ModuleName taxmoduletypes.ModuleName banktypes.ModuleName
    stakingtypes.ModuleName minttypes.ModuleName distrtypes.ModuleName slashingtypes.ModuleName crisistypes.ModuleName
    govtypes.ModuleName icacontrollertypes.SubModuleName
  simp only [List.mem_cons, List.mem_singleton, List.not_mem_nil, or_false, not_or]
  constructor
  · intro h
    split_ifs at h
    simp_all
  · intro h
    simp [h]

/-- The switch assigns to each listed name the key table the lookup table pairs
with it. -/
theorem legacyKeyTable_of_mem_builders (C : Collaborators) (T : LegacyKeyTables) (n : String)
    (kt : KeyTable) (h : (n, kt) ∈ legacyBuilders C T) : legacyKeyTable C T n = some kt := by
  unfold legacyBuilders at h
  simp only [List.mem_cons, Prod.mk.injEq, List.mem_singleton, List.not_mem_nil, or_false] at h
  rcases h with h | h | h | h | h | h | h | h | h | h <;> obtain ⟨rfl, rfl⟩ := h <;> rfl

/-- The consensus-parameters namespace is not a case of the switch. -/
theorem legacyKeyTable_Paramspace (C : Collaborators) (T : LegacyKeyTables) :
    legacyKeyTable C T baseapp.Paramspace = none := by
  rfl

/-- The loop does not call `WithKeyTable` on a subspace that has a key table, nor
on one the switch skips. -/
theorem migrateLoop_calls_count (C : Collaborators) (T : LegacyKeyTables) (l : List Subspace)
    (k : Keeper) (n : String) (h : (k.table n).isSome ∨ legacyKeyTable C T n = none) :
    (migrateLoop C T l k).1.calls.count n = k.calls.count n := by
  induction l generalizing k with
  | nil => rfl
  | cons s rest ih =>
    rw [migrateLoop_cons]
    cases hl : legacyKeyTable C T s.name with
    | none => exact ih k h
    | some kt =>
      cases ht : k.table s.name with
      | some b => exact ih k h
      | none =>
        have hne : n ≠ s.name := by
          rintro rfl
          rcases h with h | h
          · simp [ht] at h
          · simp [hl] at h
        have hne2 : s.name ≠ n := fun e => hne e.symm
        simp only
        rw [ih]
        · simp [List.count_append, List.count_cons, hne2]
        · simpa [Function.update_noteq hne] using h

/-- The loop never panics, so the call is its final statement run on the keeper
the loop leaves. -/
theorem getLegacySubspaces_eq (C : Collaborators) (T : LegacyKeyTables) (k : Keeper) :
    getLegacySubspaces C T k =
      ((migrateLoop C T k.GetSubspaces k).1.Subspace baseapp.Paramspace).1.WithKeyTable
        ((migrateLoop C T k.GetSubspaces k).1.Subspace baseapp.Paramspace).2
        T.ConsensusParamsKeyTable := by
  unfold getLegacySubspaces
  have h := migrateLoop_fault C T k.GetSubspaces k
  generalize migrateLoop C T k.GetSubspaces k = r at h
  obtain ⟨k1, f⟩ := r
  simp only at h
  subst h
  rfl

theorem mem_GetSubspaces (k : Keeper) (n : String) :
    Subspace.mk n ∈ k.GetSubspaces ↔ n ∈ k.names := by
  simp [Keeper.GetSubspaces]

theorem subspace_snd (k : Keeper) (n : String) : (k.Subspace n).2 = { name := n } := by
  unfold Keeper.Subspace
  split <;> rfl

theorem subspace_names (k : Keeper) (n : String) :
    (k.Subspace n).1.names = if n ∈ k.names then k.names else k.names ++ [n] := by
  unfold Keeper.Subspace
  split <;> rfl

theorem subspace_table (k : Keeper) (n m : String) :
    (k.Subspace n).1.table m = if n ∈ k.names then k.table m
      else if m = n then none else k.table m := by
  unfold Keeper.Subspace
  by_cases h : n ∈ k.names
  · simp [h]
  · by_cases hm : m = n
    · subst hm; simp [h]
    · simp [h, hm, Function.update_noteq hm]

theorem subspace_calls (k : Keeper) (n : String) : (k.Subspace n).1.calls = k.calls := by
  unfold Keeper.Subspace
  split <;> rfl

theorem withKeyTable_names (k : Keeper) (s : Subspace) (t : KeyTable) :
    (k.WithKeyTable s t).1.names = k.names := by
  unfold Keeper.WithKeyTable
  cases k.table s.name with
  | none => rfl
  | some b => simp only; split <;> rfl

theorem withKeyTable_calls (k : Keeper) (s : Subspace) (t : KeyTable) :
    (k.WithKeyTable s t).1.calls = k.calls ++ [s.name] := by
  unfold Keeper.WithKeyTable
  cases k.table s.name with
  | none => rfl
  | some b => simp only; split <;> rfl

theorem withKeyTable_table (k : Keeper) (s : Subspace) (t : KeyTable) (m : String) :
    (k.WithKeyTable s t).1.table m =
      if m = s.name then (match k.table m with | some b => some b | none => some t)
      else k.table m := by
  unfold Keeper.WithKeyTable
  by_cases hm : m = s.name
  · subst hm
    cases h : k.table s.name with
    | none => simp
    | some b => simp only [if_true]; split <;> simp [h]
  · cases h : k.table s.name with
    | none => simp [hm, Function.update_noteq hm]
    | some b => simp only [hm, if_false]; split <;> rfl

theorem withKeyTable_result (k : Keeper) (s : Subspace) (t : KeyTable) :
    (k.WithKeyTable s t).2 =
      match k.table s.name with
      | none => .ok s
      | some b => if b = t then .ok s else .error Fault.SchemaConflict := by
  unfold Keeper.WithKeyTable
  cases h : k.table s.name with
  | none => rfl
  | some b => simp only; split <;> rfl

/-- The registered names after the call. -/
theorem getLegacySubspaces_names (C : Collaborators) (T : LegacyKeyTables) (k : Keeper) :
    (getLegacySubspaces C T k).1.names =
      if baseapp.Paramspace ∈ k.names then k.names else k.names ++ [baseapp.Paramspace] := by
  rw [getLegacySubspaces_eq, withKeyTable_names, subspace_names, migrateLoop_names]

/-- The binding, after the call, of a name other than the consensus-parameters one. -/
theorem getLegacySubspaces_table_ne (C : Collaborators) (T : LegacyKeyTables) (k : Keeper)
    (n : String) (hn : n ≠ baseapp.Paramspace) :
    (getLegacySubspaces C T k).1.table n =
      if n ∈ k.names then
        (match k.table n with
         | some t => some t
         | none => legacyKeyTable C T n)
      else k.table n := by
  rw [getLegacySubspaces_eq, withKeyTable_table, subspace_snd, subspace_table,
    migrateLoop_names, migrateLoop_table]
  simp only [mem_GetSubspaces]
  by_cases h : baseapp.Paramspace ∈ k.names <;> simp [hn, h]

/-- The binding of the consensus-parameters name after the call. -/
theorem getLegacySubspaces_table_Paramspace (C : Collaborators) (T : LegacyKeyTables)
    (k : Keeper) :
    (getLegacySubspaces C T k).1.table baseapp.Paramspace =
      if baseapp.Paramspace ∈ k.names then
        (match k.table baseapp.Paramspace with
         | some b => some b
         | none => some T.ConsensusParamsKeyTable)
      else some T.ConsensusParamsKeyTable := by
  rw [getLegacySubspaces_eq, withKeyTable_table, subspace_snd, subspace_table,
    migrateLoop_names, migrateLoop_table]
  simp only [mem_GetSubspaces, legacyKeyTable_Paramspace]
  by_cases h : baseapp.Paramspace ∈ k.names
  · simp only [h, if_true]
    cases k.table baseapp.Paramspace <;> rfl
  · simp [h]

/-- The outcome of the call. -/
theorem getLegacySubspaces_result (C : Collaborators) (T : LegacyKeyTables) (k : Keeper) :
    (getLegacySubspaces C T k).2 =
      if baseapp.Paramspace ∈ k.names then
        (match k.table baseapp.Paramspace with
         | none => .ok { name := baseapp.Paramspace }
         | some b =>
           if b = T.ConsensusParamsKeyTable then .ok { name := baseapp.Paramspace }
           else .error Fault.SchemaConflict)
      else .ok { name := baseapp.Paramspace } := by
  rw [getLegacySubspaces_eq, withKeyTable_result, subspace_snd, subspace_table,
    migrateLoop_names, migrateLoop_table]
  simp only [mem_GetSubspaces, legacyKeyTable_Paramspace]
  by_cases h : baseapp.Paramspace ∈ k.names
  · simp only [h, if_true]
    cases k.table baseapp.Paramspace <;> rfl
  · simp [h]

/-- The `WithKeyTable` calls of the whole call: those of the loop, then the one
on the consensus-parameters subspace. -/
theorem getLegacySubspaces_calls (C : Collaborators) (T : LegacyKeyTables) (k : Keeper) :
    (getLegacySubspaces C T k).1.calls =
      (migrateLoop C T k.GetSubspaces k).1.calls ++ [baseapp.Paramspace] := by
  rw [getLegacySubspaces_eq, withKeyTable_calls, subspace_snd, subspace_calls]

theorem mem_names_getLegacySubspaces (C : Collaborators) (T : LegacyKeyTables) (k : Keeper)
    (n : String) :
    n ∈ (getLegacySubspaces C T k).1.names ↔ n ∈ k.names ∨ n = baseapp.Paramspace := by
  rw [getLegacySubspaces_names]
  by_cases h : baseapp.Paramspace ∈ k.names
  · simp only [h, if_true]
    constructor
    · exact Or.inl
    · rintro (h1 | rfl)
      · exact h1
      · exact h
  · simp [h]

/-- A call that returns, returns the consensus-parameters subspace, Bound to the
consensus key table. -/
theorem table_Paramspace_of_ok (C : Collaborators) (T : LegacyKeyTables) (k : Keeper)
    (s : Subspace) (h : (getLegacySubspaces C T k).2 = .ok s) :
    s = { name := baseapp.Paramspace } ∧
      (getLegacySubspaces C T k).1.table baseapp.Paramspace = some T.ConsensusParamsKeyTable := by
  rw [getLegacySubspaces_result] at h
  rw [getLegacySubspaces_table_Paramspace]
  by_cases hp : baseapp.Paramspace ∈ k.names
  · simp only [hp, if_true] at h ⊢
    cases ht : k.table baseapp.Paramspace with
    | none =>
      rw [ht] at h
      simp only [Except.ok.injEq] at h
      exact ⟨h.symm, rfl⟩
    | some b =>
      rw [ht] at h
      simp only at h
      by_cases hb : b = T.ConsensusParamsKeyTable
      · simp only [hb, if_true, Except.ok.injEq] at h
        exact ⟨h.symm, by rw [hb]⟩
      · simp [hb] at h
  · simp only [hp, if_false, Except.ok.injEq] at h
    rw [if_neg hp]
    exact ⟨h.symm, rfl⟩

/-- After the call a registered subspace without a key table is one the switch
skips. -/
theorem table_fixed_of_migrated (C : Collaborators) (T : LegacyKeyTables) (k : Keeper)
    (n : String) (hn : n ≠ baseapp.Paramspace) :
    (match (getLegacySubspaces C T k).1.table n with
     | some t => some t
     | none => if n ∈ k.names then legacyKeyTable C T n else none) =
      (getLegacySubspaces C T k).1.table n := by
  rw [getLegacySubspaces_table_ne C T k n hn]
  by_cases hk : n ∈ k.names
  · simp only [hk, if_true]
    cases k.table n with
    | some t => rfl
    | none => cases legacyKeyTable C T n <;> rfl
  · simp only [hk, if_false]
    cases k.table n <;> rfl

/-- After the call the consensus-parameters subspace is Bound, whatever the
outcome: to the key table it had, the outcome telling whether that one is the
consensus key table, or else to the consensus key table, the call returning. -/
theorem table_Paramspace_after (C : Collaborators) (T : LegacyKeyTables) (k : Keeper) :
    (∃ b, (getLegacySubspaces C T k).1.table baseapp.Paramspace = some b ∧
        (getLegacySubspaces C T k).2 =
          if b = T.ConsensusParamsKeyTable then .ok { name := baseapp.Paramspace }
          else .error Fault.SchemaConflict) := by
  rw [getLegacySubspaces_result, getLegacySubspaces_table_Paramspace]
  by_cases hp : baseapp.Paramspace ∈ k.names
  · rw [if_pos hp, if_pos hp]
    cases k.table baseapp.Paramspace with
    | none => exact ⟨T.ConsensusParamsKeyTable, rfl, by simp⟩
    | some b => exact ⟨b, rfl, rfl⟩
  · rw [if_neg hp, if_neg hp]
    exact ⟨T.ConsensusParamsKeyTable, rfl, by simp⟩

/-- C1 as stated fails on a registry whose consensus-parameters subspace is Bound
to another schema: the first run panics with a schema conflict, and so does the
second run on the registry the first one left. -/
theorem second_run_conflicts :
    (getLegacySubspaces acceptAll sampleKeyTables baseappOtherKeeper).2 =
      .error Fault.SchemaConflict ∧
    (getLegacySubspaces acceptAll sampleKeyTables
      (getLegacySubspaces acceptAll sampleKeyTables baseappOtherKeeper).1).2 =
      .error Fault.SchemaConflict :=
  ⟨rfl, rfl⟩

/-- C1, amended: for every registry, a second run of `getLegacySubspaces` on the
registry the first run left ends as the first run ended (so it returns the same
subspace without a panic whenever the first run returned), registers no new
namespace and leaves the binding of every name exactly as the first run left
it. -/
theorem getLegacySubspaces_idempotent (C : Collaborators) (T : LegacyKeyTables) (k : Keeper) :
    (getLegacySubspaces C T (getLegacySubspaces C T k).1).2 = (getLegacySubspaces C T k).2 ∧
    (∀ s, (getLegacySubspaces C T k).2 = .ok s →
      (getLegacySubspaces C T (getLegacySubspaces C T k).1).2 = .ok s) ∧
    (getLegacySubspaces C T (getLegacySubspaces C T k).1).1.names =
      (getLegacySubspaces C T k).1.names ∧
    ∀ n, (getLegacySubspaces C T (getLegacySubspaces C T k).1).1.table n =
      (getLegacySubspaces C T k).1.table n := by
  have hmem : baseapp.Paramspace ∈ (getLegacySubspaces C T k).1.names :=
    (mem_names_getLegacySubspaces C T k baseapp.Paramspace).2 (Or.inr rfl)
  obtain ⟨b, hb, hr⟩ := table_Paramspace_after C T k
  have hres : (getLegacySubspaces C T (getLegacySubspaces C T k).1).2 =
      (getLegacySubspaces C T k).2 := by
    rw [getLegacySubspaces_result C T (getLegacySubspaces C T k).1, if_pos hmem, hb, hr]
  refine ⟨hres, fun s hs => hres.trans hs, ?_, ?_⟩
  · rw [getLegacySubspaces_names, if_pos hmem]
  · intro n
    by_cases hn : n = baseapp.Paramspace
    · subst hn
      rw [getLegacySubspaces_table_Paramspace C T (getLegacySubspaces C T k).1, if_pos hmem, hb]
    · rw [getLegacySubspaces_table_ne C T _ n hn]
      by_cases hk : n ∈ k.names
      · have hk1 : n ∈ (getLegacySubspaces C T k).1.names :=
          (mem_names_getLegacySubspaces C T k n).2 (Or.inl hk)
        have hfix := table_fixed_of_migrated C T k n hn
        simp only [hk, if_true] at hfix
        rw [if_pos hk1]
        exact hfix
      · have hk1 : n ∉ (getLegacySubspaces C T k).1.names := by
          rw [mem_names_getLegacySubspaces]
          exact fun h => h.elim hk hn
        rw [if_neg hk1]

/-- The witness of C1: on the registry in which `auth` is already Bound and
`bank` is not, the first run returns, and the second run returns the same
subspace and changes no binding: `auth` keeps the key table it had before the
first run, `bank` the one the first run gave it. -/
theorem getLegacySubspaces_idempotent_witness :
    (getLegacySubspaces acceptAll sampleKeyTables authBoundKeeper).2 = .ok { name := "baseapp" } ∧
    (getLegacySubspaces acceptAll sampleKeyTables
        (getLegacySubspaces acceptAll sampleKeyTables authBoundKeeper).1).2
        = .ok { name := "baseapp" } ∧
    (getLegacySubspaces acceptAll sampleKeyTables
        (getLegacySubspaces acceptAll sampleKeyTables authBoundKeeper).1).1.table "auth" =
      authBoundKeeper.table "auth" ∧
    (getLegacySubspaces acceptAll sampleKeyTables
        (getLegacySubspaces acceptAll sampleKeyTables authBoundKeeper).1).1.table "bank" =
      some sampleKeyTables.bank :=
  ⟨rfl,
   (getLegacySubspaces_idempotent acceptAll sampleKeyTables authBoundKeeper).2.1
     { name := "baseapp" } rfl,
   ((getLegacySubspaces_idempotent acceptAll sampleKeyTables authBoundKeeper).2.2.2
     "auth").trans (by decide),
   ((getLegacySubspaces_idempotent acceptAll sampleKeyTables authBoundKeeper).2.2.2
     "bank").trans (by decide)⟩

/-- C2 as stated fails for the consensus-parameters namespace: `baseapp` is not
one of the ten listed names, yet a registered, Unbound `baseapp` subspace has a
key table after the call. -/
theorem unlisted_baseapp_becomes_bound :
    "baseapp" ∈ baseappUnboundKeeper.names ∧ "baseapp" ∉ listedNames ∧
    (baseappUnboundKeeper.table "baseapp").isSome = false ∧
    ((getLegacySubspaces acceptAll sampleKeyTables baseappUnboundKeeper).1.table
      "baseapp").isSome = true := by
  decide

/-- C2, amended: for a registered subspace whose name is neither one of the ten
listed names nor `baseapp.Paramspace`, the loop raises no panic, the outcome of
the call does not depend on the binding of that subspace, and its binding after
the call is the one it had before (an Unbound one stays Unbound). -/
theorem getLegacySubspaces_skips_unlisted (C : Collaborators) (T : LegacyKeyTables)
    (k : Keeper) (n : String) (hn : n ∈ k.names) (hl : n ∉ listedNames)
    (hp : n ≠ baseapp.Paramspace) :
    (migrateLoop C T k.GetSubspaces k).2 = none ∧
    (∀ t, (getLegacySubspaces C T { k with table := Function.update k.table n t }).2 =
      (getLegacySubspaces C T k).2) ∧
    (getLegacySubspaces C T k).1.table n = k.table n := by
  refine ⟨migrateLoop_fault C T _ k, ?_, ?_⟩
  · intro t
    have hp2 : baseapp.Paramspace ≠ n := fun e => hp e.symm
    rw [getLegacySubspaces_result, getLegacySubspaces_result]
    simp only [Function.update_noteq hp2]
  · rw [getLegacySubspaces_table_ne C T k n hp, if_pos hn,
      (legacyKeyTable_eq_none_iff C T n).2 hl]
    cases k.table n <;> rfl

/-- The witness of C2: `custom_unlisted` in the scenario registry. -/
theorem getLegacySubspaces_skips_unlisted_witness :
    "custom_unlisted" ∈ scenarioKeeper.names ∧ "custom_unlisted" ∉ listedNames ∧
    "custom_unlisted" ≠ baseapp.Paramspace ∧
    ((migrateLoop acceptAll sampleKeyTables scenarioKeeper.GetSubspaces scenarioKeeper).2 = none ∧
     (∀ t, (getLegacySubspaces acceptAll sampleKeyTables
        { scenarioKeeper with
          table := Function.update scenarioKeeper.table "custom_unlisted" t }).2 =
      (getLegacySubspaces acceptAll sampleKeyTables scenarioKeeper).2) ∧
     (getLegacySubspaces acceptAll sampleKeyTables scenarioKeeper).1.table "custom_unlisted" =
      scenarioKeeper.table "custom_unlisted") :=
  ⟨by decide, by decide, by decide,
   getLegacySubspaces_skips_unlisted acceptAll sampleKeyTables scenarioKeeper "custom_unlisted"
     (by decide) (by decide) (by decide)⟩

/-- C3 as stated fails for the consensus-parameters namespace: on a registry in
which `baseapp` is already Bound, the call invokes `WithKeyTable` on it. -/
theorem bound_baseapp_is_rebound :
    "baseapp" ∈ baseappBoundKeeper.names ∧
    (baseappBoundKeeper.table "baseapp").isSome = true ∧
    baseappBoundKeeper.calls = [] ∧
    (getLegacySubspaces acceptAll sampleKeyTables baseappBoundKeeper).1.calls = ["baseapp"] := by
  decide

/-- C3, amended: a registered subspace that already has a key table keeps that
key table through the call, whatever its name; and unless it is the one named
`baseapp.Paramspace`, the call does not invoke `WithKeyTable` on it. -/
theorem getLegacySubspaces_keeps_bound (C : Collaborators) (T : LegacyKeyTables)
    (k : Keeper) (n : String) (t : KeyTable) (hn : n ∈ k.names) (ht : k.table n = some t) :
    (getLegacySubspaces C T k).1.table n = some t ∧
    (n ≠ baseapp.Paramspace →
      (getLegacySubspaces C T k).1.calls.count n = k.calls.count n) := by
  constructor
  · by_cases hp : n = baseapp.Paramspace
    · subst hp
      rw [getLegacySubspaces_table_Paramspace, if_pos hn, ht]
    · rw [getLegacySubspaces_table_ne C T k n hp, if_pos hn, ht]
  · intro hp
    have hp2 : baseapp.Paramspace ≠ n := fun e => hp e.symm
    rw [getLegacySubspaces_calls, List.count_append,
      migrateLoop_calls_count C T _ k n (Or.inl (by simp [ht]))]
    simp [List.count_cons, hp2]

/-- The witness of C3: on the registry in which `auth` is already Bound to a key
table other than the one the switch pairs with it, and `bank` is Unbound, the
call returns; `auth` reaches the `HasKeyTable` guard, keeps its key table and is
not among the subspaces `WithKeyTable` was called on, which are `bank` and
`baseapp`. -/
theorem getLegacySubspaces_keeps_bound_witness :
    "auth" ∈ authBoundKeeper.names ∧
    authBoundKeeper.table "auth" =
      some { m := [("MaxMemoCharacters", "uint64"), ("TxSigLimit", "uint64")] } ∧
    legacyKeyTable acceptAll sampleKeyTables "auth" = some sampleKeyTables.auth ∧
    "auth" ≠ baseapp.Paramspace ∧
    (getLegacySubspaces acceptAll sampleKeyTables authBoundKeeper).2 = .ok { name := "baseapp" } ∧
    (getLegacySubspaces acceptAll sampleKeyTables authBoundKeeper).1.table "auth" =
      some { m := [("MaxMemoCharacters", "uint64"), ("TxSigLimit", "uint64")] } ∧
    (getLegacySubspaces acceptAll sampleKeyTables authBoundKeeper).1.calls.count "auth" = 0 ∧
    (getLegacySubspaces acceptAll sampleKeyTables authBoundKeeper).1.calls = ["bank", "baseapp"] :=
  ⟨by decide, by decide, by decide, by decide, rfl,
   (getLegacySubspaces_keeps_bound acceptAll sampleKeyTables authBoundKeeper "auth"
     { m := [("MaxMemoCharacters", "uint64"), ("TxSigLimit", "uint64")] }
     (by decide) (by decide)).1,
   ((getLegacySubspaces_keeps_bound acceptAll sampleKeyTables authBoundKeeper "auth"
     { m := [("MaxMemoCharacters", "uint64"), ("TxSigLimit", "uint64")] }
     (by decide) (by decide)).2 (by decide)).trans (by decide),
   by decide⟩

/-- C4: a registered subspace that has no key table and whose name is one of
the ten listed names has, after the call, the key table of the builder paired
with that name. -/
theorem getLegacySubspaces_backfills (C : Collaborators) (T : LegacyKeyTables)
    (k : Keeper) (n : String) (kt : KeyTable) (hn : n ∈ k.names) (ht : k.table n = none)
    (hb : (n, kt) ∈ legacyBuilders C T) :
    (getLegacySubspaces C T k).1.table n = some kt := by
  have hl := legacyKeyTable_of_mem_builders C T n kt hb
  have hp : n ≠ baseapp.Paramspace := by
    rintro rfl
    rw [legacyKeyTable_Paramspace] at hl
    cases hl
  rw [getLegacySubspaces_table_ne C T k n hp, if_pos hn, ht]
  exact hl

/-- The witness of C4: `bank` in the scenario registry. -/
theorem getLegacySubspaces_backfills_witness :
    "bank" ∈ scenarioKeeper.names ∧ scenarioKeeper.table "bank" = none ∧
    ("bank", sampleKeyTables.bank) ∈ legacyBuilders acceptAll sampleKeyTables ∧
    (getLegacySubspaces acceptAll sampleKeyTables scenarioKeeper).1.table "bank" =
      some sampleKeyTables.bank :=
  ⟨by decide, by decide, by decide,
   getLegacySubspaces_backfills acceptAll sampleKeyTables scenarioKeeper "bank"
     sampleKeyTables.bank (by decide) (by decide) (by decide)⟩

/-- C5 as stated fails when the consensus-parameters subspace is already Bound
to another schema: the call panics with a schema conflict. -/
theorem baseapp_bound_elsewhere_conflicts :
    (getLegacySubspaces acceptAll sampleKeyTables baseappOtherKeeper).2 =
      .error Fault.SchemaConflict := by
  rfl

/-- C5, amended: whenever the consensus-parameters subspace is not already Bound
to a schema other than `ConsensusParamsKeyTable` (it is unregistered, Unbound, or
Bound to that schema), the call returns without a panic the subspace named
`baseapp.Paramspace`, registered and Bound to `ConsensusParamsKeyTable`. -/
theorem getLegacySubspaces_consensus (C : Collaborators) (T : LegacyKeyTables) (k : Keeper)
    (h : baseapp.Paramspace ∈ k.names →
      k.table baseapp.Paramspace = none ∨ k.table baseapp.Paramspace = some T.ConsensusParamsKeyTable) :
    (getLegacySubspaces C T k).2 = .ok { name := baseapp.Paramspace } ∧
    baseapp.Paramspace ∈ (getLegacySubspaces C T k).1.names ∧
    (getLegacySubspaces C T k).1.table baseapp.Paramspace = some T.ConsensusParamsKeyTable := by
  refine ⟨?_, (mem_names_getLegacySubspaces C T k baseapp.Paramspace).2 (Or.inr rfl), ?_⟩
  · rw [getLegacySubspaces_result]
    by_cases hp : baseapp.Paramspace ∈ k.names
    · rw [if_pos hp]
      rcases h hp with h1 | h1 <;> rw [h1]
      simp
    · rw [if_neg hp]
  · rw [getLegacySubspaces_table_Paramspace]
    by_cases hp : baseapp.Paramspace ∈ k.names
    · rw [if_pos hp]
      rcases h hp with h1 | h1 <;> rw [h1]
    · rw [if_neg hp]

/-- The witness of C5: a registry in which `baseapp` is already Bound to the
consensus key table. -/
theorem getLegacySubspaces_consensus_witness :
    (baseapp.Paramspace ∈ baseappBoundKeeper.names →
      baseappBoundKeeper.table baseapp.Paramspace = none ∨
      baseappBoundKeeper.table baseapp.Paramspace = some sampleKeyTables.ConsensusParamsKeyTable) ∧
    ((getLegacySubspaces acceptAll sampleKeyTables baseappBoundKeeper).2 =
        .ok { name := baseapp.Paramspace } ∧
     baseapp.Paramspace ∈ (getLegacySubspaces acceptAll sampleKeyTables baseappBoundKeeper).1.names ∧
     (getLegacySubspaces acceptAll sampleKeyTables baseappBoundKeeper).1.table baseapp.Paramspace =
        some sampleKeyTables.ConsensusParamsKeyTable) :=
  ⟨fun _ => Or.inr (by decide),
   getLegacySubspaces_consensus acceptAll sampleKeyTables baseappBoundKeeper
     (fun _ => Or.inr (by decide))⟩

/-- C6: running the loop of `getLegacySubspaces` over any two permutations of
the list returned by `GetSubspaces` raises no panic and gives the same final
state: the same names, each with the same binding. -/
theorem migrateLoop_order_independent (C : Collaborators) (T : LegacyKeyTables) (k : Keeper)
    (l1 l2 : List Subspace) (h1 : l1.Perm k.GetSubspaces) (h2 : l2.Perm k.GetSubspaces) :
    (migrateLoop C T l1 k).2 = none ∧ (migrateLoop C T l2 k).2 = none ∧
    (migrateLoop C T l1 k).1.names = (migrateLoop C T l2 k).1.names ∧
    ∀ n, (migrateLoop C T l1 k).1.table n = (migrateLoop C T l2 k).1.table n := by
  refine ⟨migrateLoop_fault C T l1 k, migrateLoop_fault C T l2 k, ?_, ?_⟩
  · rw [migrateLoop_names, migrateLoop_names]
  · intro n
    have hmem : Subspace.mk n ∈ l1 ↔ Subspace.mk n ∈ l2 :=
      (h1.trans h2.symm).mem_iff
    rw [migrateLoop_table, migrateLoop_table]
    by_cases hm : Subspace.mk n ∈ l1
    · rw [if_pos hm, if_pos (hmem.1 hm)]
    · rw [if_neg hm, if_neg (fun h => hm (hmem.2 h))]

/-- The witness of C6: two orders of the scenario registry. -/
theorem migrateLoop_order_independent_witness :
    List.Perm [Subspace.mk "custom_unlisted", Subspace.mk "bank", Subspace.mk "auth"]
      scenarioKeeper.GetSubspaces ∧
    List.Perm [Subspace.mk "bank", Subspace.mk "auth", Subspace.mk "custom_unlisted"]
      scenarioKeeper.GetSubspaces ∧
    ((migrateLoop acceptAll sampleKeyTables
        [Subspace.mk "custom_unlisted", Subspace.mk "bank", Subspace.mk "auth"]
        scenarioKeeper).2 = none ∧
     (migrateLoop acceptAll sampleKeyTables
        [Subspace.mk "bank", Subspace.mk "auth", Subspace.mk "custom_unlisted"]
        scenarioKeeper).2 = none ∧
     (migrateLoop acceptAll sampleKeyTables
        [Subspace.mk "custom_unlisted", Subspace.mk "bank", Subspace.mk "auth"]
        scenarioKeeper).1.names =
      (migrateLoop acceptAll sampleKeyTables
        [Subspace.mk "bank", Subspace.mk "auth", Subspace.mk "custom_unlisted"]
        scenarioKeeper).1.names ∧
     ∀ n, (migrateLoop acceptAll sampleKeyTables
        [Subspace.mk "custom_unlisted", Subspace.mk "bank", Subspace.mk "auth"]
        scenarioKeeper).1.table n =
      (migrateLoop acceptAll sampleKeyTables
        [Subspace.mk "bank", Subspace.mk "auth", Subspace.mk "custom_unlisted"]
        scenarioKeeper).1.table n) :=
  ⟨by decide, by decide,
   migrateLoop_order_independent acceptAll sampleKeyTables scenarioKeeper _ _
     (by decide) (by decide)⟩

/-! ## The validators -/

/-- Trimming leaves nothing exactly when every character is white space. -/
theorem trimSpaceChars_eq_nil_iff (cs : List Char) :
    trimSpaceChars cs = [] ↔ cs.all isSpace = true := by
  unfold trimSpaceChars
  rw [List.reverse_eq_nil_iff, List.dropWhile_eq_nil_iff, List.all_eq_true]
  constructor
  · intro h
    have hnil : cs.dropWhile isSpace = [] := by
      cases hd : cs.dropWhile isSpace with
      | nil => rfl
      | cons x rest =>
        have hx : isSpace x = true := h x (by rw [hd]; simp)
        have hne : cs.dropWhile isSpace ≠ [] := by rw [hd]; simp
        have hnot := List.head_dropWhile_not isSpace cs hne
        simp only [hd, List.head_cons] at hnot
        rw [hx] at hnot
        cases hnot
    exact List.dropWhile_eq_nil_iff.1 hnil
  · intro h x hx
    have hnil : cs.dropWhile isSpace = [] := List.dropWhile_eq_nil_iff.2 h
    rw [hnil] at hx
    simp at hx

/-- `strings.TrimSpace(s) == ""` exactly when `s` is blank. -/
theorem TrimSpace_eq_empty_iff (s : String) : TrimSpace s = "" ↔ isBlank s = true := by
  unfold TrimSpace isBlank
  rw [← trimSpaceChars_eq_nil_iff]
  constructor
  · intro h
    have := congrArg String.data h
    simpa using this
  · intro h
    rw [h]

/-- `validateFeeRate` on an int32 value. -/
theorem validateFeeRate_int32 (v : Int) :
    validateFeeRate (.int32 v) =
      if v < 0 ∨ v > 100 then some Error.ErrInvalidFeeRate else none := by
  rfl

/-- `Validate` returns nil exactly when the four validators do. -/
theorem Validate_eq_none_iff (C : Collaborators) (p : Params) :
    p.Validate C = none ↔
      validateFeeRate (.int32 p.FeeRate) = none ∧ validateFeeCaps (.string p.FeeCaps) = none ∧
      validateContractAddress C (.string p.ContractAddress) = none ∧
      validateBaseDenom C (.string p.BaseDenom) = none := by
  unfold Params.Validate
  cases validateFeeRate (.int32 p.FeeRate) <;>
    cases validateFeeCaps (.string p.FeeCaps) <;>
    cases validateContractAddress C (.string p.ContractAddress) <;>
    cases validateBaseDenom C (.string p.BaseDenom) <;> simp

/-- C7: on an int32 value `validateFeeRate` returns nil exactly when the value
lies in `[0, 100]`, bounds included, and returns exactly `ErrInvalidFeeRate`
exactly when it is negative or above 100. -/
theorem validateFeeRate_range (v : Int) :
    (validateFeeRate (.int32 v) = none ↔ 0 ≤ v ∧ v ≤ 100) ∧
    (validateFeeRate (.int32 v) = some Error.ErrInvalidFeeRate ↔ v < 0 ∨ v > 100) := by
  rw [validateFeeRate_int32]
  by_cases h : v < 0 ∨ v > 100
  · rw [if_pos h]
    refine ⟨⟨fun h0 => (by cases h0), fun h0 => ?_⟩, ⟨fun _ => h, fun _ => rfl⟩⟩
    omega
  · rw [if_neg h]
    refine ⟨⟨fun _ => ?_, fun _ => rfl⟩, ⟨fun h0 => (by cases h0), fun h0 => absurd h0 h⟩⟩
    omega

/-- C8: `Params.Validate` returns the first failure among `validateFeeRate`,
`validateFeeCaps`, `validateContractAddress` and `validateBaseDenom`, taken in
this order on the four fields; it returns nil exactly when all four do; and an
out-of-range fee rate yields `ErrInvalidFeeRate` whatever the other fields are,
a blank base denom included. -/
theorem Validate_first_failure (C : Collaborators) (p : Params) :
    p.Validate C =
      firstFailure
        [validateFeeRate (.int32 p.FeeRate), validateFeeCaps (.string p.FeeCaps),
         validateContractAddress C (.string p.ContractAddress),
         validateBaseDenom C (.string p.BaseDenom)] ∧
    (p.Validate C = none ↔
      validateFeeRate (.int32 p.FeeRate) = none ∧ validateFeeCaps (.string p.FeeCaps) = none ∧
      validateContractAddress C (.string p.ContractAddress) = none ∧
      validateBaseDenom C (.string p.BaseDenom) = none) ∧
    (p.FeeRate < 0 ∨ p.FeeRate > 100 → p.Validate C = some Error.ErrInvalidFeeRate) := by
  refine ⟨?_, Validate_eq_none_iff C p, ?_⟩
  · unfold Params.Validate
    cases validateFeeRate (.int32 p.FeeRate) <;>
      cases validateFeeCaps (.string p.FeeCaps) <;>
      cases validateContractAddress C (.string p.ContractAddress) <;>
      cases validateBaseDenom C (.string p.BaseDenom) <;> rfl
  · intro h
    unfold Params.Validate
    rw [validateFeeRate_int32, if_pos h]

/-- The witness of C8: FeeRate 101 with a blank BaseDenom. -/
theorem Validate_first_failure_witness :
    (Params.mk 101 "1000unls" DefaultContractAddress " ").Validate sampleCollaborators =
      some Error.ErrInvalidFeeRate ∧
    validateBaseDenom sampleCollaborators (.string " ") =
      some (Error.new "base denom cannot be blank") :=
  ⟨(Validate_first_failure sampleCollaborators
      (Params.mk 101 "1000unls" DefaultContractAddress " ")).2.2 (Or.inr (by decide)),
   by decide⟩

/-- The address validator on the default address, and the denom validator on the
default denom, return what the collaborator returns on them. -/
theorem default_address_and_denom (C : Collaborators) :
    (validateContractAddress C (.string DefaultParams.ContractAddress) = none ↔
      C.AccAddressFromBech32 DefaultContractAddress = none) ∧
    (validateBaseDenom C (.string DefaultParams.BaseDenom) = none ↔
      C.ValidateDenom DefaultBaseDenom = none) := by
  constructor
  · show validateContractAddress C (.string DefaultContractAddress) = none ↔ _
    unfold validateContractAddress
    cases h : C.AccAddressFromBech32 DefaultContractAddress <;> simp [h]
  · show validateBaseDenom C (.string DefaultBaseDenom) = none ↔ _
    have hb : ¬ TrimSpace DefaultBaseDenom = "" := by decide
    unfold validateBaseDenom
    cases h : C.ValidateDenom DefaultBaseDenom <;> simp [hb, h]

set_option maxRecDepth 100000 in
/-- The sample collaborators accept the default address and the default denom. -/
theorem sampleCollaborators_accept_defaults :
    sampleCollaborators.AccAddressFromBech32 DefaultContractAddress = none ∧
    sampleCollaborators.ValidateDenom DefaultBaseDenom = none := by
  decide

set_option maxRecDepth 100000 in
/-- The address check that expects the prefix `cosmos` rejects the default
address, whose prefix is `nolus`. -/
theorem cosmosCollaborators_reject_default_address :
    cosmosCollaborators.AccAddressFromBech32 DefaultContractAddress =
      some "invalid Bech32 prefix" := by
  decide

/-- C9 as stated fails when the address collaborator does not parse the default
contract address: in a process that keeps the account prefix `cosmos`, the
default address, whose prefix is `nolus`, is rejected and
`DefaultParams().Validate()` returns `ErrInvalidAddress`. -/
theorem DefaultParams_invalid_for_cosmos :
    DefaultParams.Validate cosmosCollaborators =
      some (Error.Wrap Error.ErrInvalidAddress "invalid Bech32 prefix") := by
  have h1 : validateFeeRate (.int32 DefaultParams.FeeRate) = none := by decide
  have h2 : validateFeeCaps (.string DefaultParams.FeeCaps) = none := rfl
  have h3 : validateContractAddress cosmosCollaborators (.string DefaultParams.ContractAddress) =
      some (Error.Wrap Error.ErrInvalidAddress "invalid Bech32 prefix") := by
    have hd : DefaultParams.ContractAddress = DefaultContractAddress := rfl
    rw [hd]
    unfold validateContractAddress
    simp only [cosmosCollaborators_reject_default_address]
  unfold Params.Validate
  simp only [h1, h2, h3]

/-- C9, amended: the defaults are FeeRate 40, FeeCaps `1000unls`, the default
`nolus1...` contract address and BaseDenom `stake`; the fee rate and fee caps
validators accept their defaults; the address validator accepts the default
address exactly when the address collaborator parses it, the denom validator
accepts `stake` exactly when the denomination collaborator does; and
`DefaultParams().Validate()` returns nil exactly when both collaborators
accept. -/
theorem DefaultParams_valid (C : Collaborators) :
    DefaultParams =
      { FeeRate := 40, FeeCaps := "1000unls",
        ContractAddress := "nolus14hj2tavq8fpesdwxxcu44rty3hh90vhujrvcmstl4zr3txmfvw9s0k0puz",
        BaseDenom := "stake" } ∧
    validateFeeRate (.int32 DefaultParams.FeeRate) = none ∧
    validateFeeCaps (.string DefaultParams.FeeCaps) = none ∧
    (validateContractAddress C (.string DefaultParams.ContractAddress) = none ↔
      C.AccAddressFromBech32 DefaultContractAddress = none) ∧
    (validateBaseDenom C (.string DefaultParams.BaseDenom) = none ↔
      C.ValidateDenom DefaultBaseDenom = none) ∧
    (DefaultParams.Validate C = none ↔
      C.AccAddressFromBech32 DefaultContractAddress = none ∧
      C.ValidateDenom DefaultBaseDenom = none) := by
  have h1 : validateFeeRate (.int32 DefaultParams.FeeRate) = none := by decide
  have h2 : validateFeeCaps (.string DefaultParams.FeeCaps) = none := rfl
  obtain ⟨h3, h4⟩ := default_address_and_denom C
  refine ⟨rfl, h1, h2, h3, h4, ?_⟩
  rw [Validate_eq_none_iff]
  constructor
  · rintro ⟨_, _, ha, hd⟩
    exact ⟨h3.1 ha, h4.1 hd⟩
  · rintro ⟨ha, hd⟩
    exact ⟨h1, h2, h3.2 ha, h4.2 hd⟩

/-- The witness of C9: the sample collaborators, whose address check expects
the prefix `nolus`, accept the default address and the default denom, and the
defaults validate. -/
theorem DefaultParams_valid_witness :
    sampleCollaborators.AccAddressFromBech32 DefaultContractAddress = none ∧
    sampleCollaborators.ValidateDenom DefaultBaseDenom = none ∧
    DefaultParams.Validate sampleCollaborators = none :=
  ⟨sampleCollaborators_accept_defaults.1, sampleCollaborators_accept_defaults.2,
   (DefaultParams_valid sampleCollaborators).2.2.2.2.2.2
     ⟨sampleCollaborators_accept_defaults.1, sampleCollaborators_accept_defaults.2⟩⟩

/-- No white space character is a letter. -/
theorem isSpace_not_isAlpha (c : Char) (h : isSpace c = true) : c.isAlpha = false := by
  unfold isSpace at h
  simp only [Bool.or_eq_true, decide_eq_true_eq, Bool.and_eq_true] at h
  rcases h with (((((((((((((h | h) | h) | h) | h) | h) | h) | h) | h) | h) | h) | h) | h) | h) | h
  all_goals first
    | (subst h; decide)
    | (obtain ⟨h1, h2⟩ := h
       have hv : c.val.toBitVec.toNat = c.toNat := rfl
       have h65 : (UInt32.toBitVec 65).toNat = 65 := rfl
       have h90 : (UInt32.toBitVec 90).toNat = 90 := rfl
       have h97 : (UInt32.toBitVec 97).toNat = 97 := rfl
       have h122 : (UInt32.toBitVec 122).toNat = 122 := rfl
       simp only [Char.isAlpha, Char.isUpper, Char.isLower, Bool.or_eq_false_iff,
         Bool.and_eq_false_iff, decide_eq_false_iff_not, ge_iff_le, UInt32.le_def,
         BitVec.le_def, hv, h65, h90, h97, h122]
       omega)

/-- The sample denomination check rejects blank strings. -/
theorem sampleValidateDenom_rejects_blank (s : String) (h : isBlank s = true) :
    sampleValidateDenom s ≠ none := by
  unfold sampleValidateDenom
  unfold isBlank at h
  cases hd : s.data with
  | nil => simp
  | cons c rest =>
    rw [hd] at h
    simp only [List.all_cons, Bool.and_eq_true] at h
    have hc : c.isAlpha = false := isSpace_not_isAlpha c h.1
    simp [hc]

/-- C10: a string that is empty or all white space is rejected by
`validateBaseDenom` with the error `base denom cannot be blank`, whatever the
denomination collaborator is; and, the collaborator rejecting blank strings as
`sdk.ValidateDenom` does, every string the collaborator accepts is accepted by
`validateBaseDenom`. -/
theorem validateBaseDenom_blank_and_valid (C : Collaborators)
    (hC : ∀ s, isBlank s = true → C.ValidateDenom s ≠ none) (s : String) :
    (isBlank s = true →
      ∀ D : Collaborators,
        validateBaseDenom D (.string s) = some (Error.new "base denom cannot be blank")) ∧
    (C.ValidateDenom s = none → validateBaseDenom C (.string s) = none) := by
  constructor
  · intro hb D
    unfold validateBaseDenom
    simp only [(TrimSpace_eq_empty_iff s).2 hb, if_true]
  · intro hv
    have hnb : ¬ TrimSpace s = "" := fun h => hC s ((TrimSpace_eq_empty_iff s).1 h) hv
    unfold validateBaseDenom
    simp only [hnb, if_false, hv]

/-- The witness of C10: the sample denomination check rejects blank strings; a
blank string is rejected as blank under any collaborator; `unls`, which the
sample check accepts, is accepted. -/
theorem validateBaseDenom_blank_and_valid_witness :
    (∀ s, isBlank s = true → sampleCollaborators.ValidateDenom s ≠ none) ∧
    validateBaseDenom acceptAll (.string " \t ") =
      some (Error.new "base denom cannot be blank") ∧
    validateBaseDenom sampleCollaborators (.string "unls") = none :=
  ⟨sampleValidateDenom_rejects_blank,
   (validateBaseDenom_blank_and_valid sampleCollaborators sampleValidateDenom_rejects_blank
      " \t ").1 (by decide) acceptAll,
   (validateBaseDenom_blank_and_valid sampleCollaborators sampleValidateDenom_rejects_blank
      "unls").2 (by decide)⟩

/-! ## The validators, field by field -/

/-- `validateBaseDenom` on a string: the blank check, then the verdict of the
denomination collaborator, passed on as it is. -/
theorem validateBaseDenom_string (C : Collaborators) (s : String) :
    validateBaseDenom C (.string s) =
      if TrimSpace s = "" then some (Error.new "base denom cannot be blank")
      else C.ValidateDenom s := by
  unfold validateBaseDenom
  by_cases h : TrimSpace s = ""
  · simp only [h, if_true]
  · simp only [h, if_false]
    cases C.ValidateDenom s <;> rfl

/-- `validateContractAddress` on a string: nil when the address parses,
otherwise `ErrInvalidAddress` wrapped with the text of the parse failure. -/
theorem validateContractAddress_string (C : Collaborators) (s : String) :
    validateContractAddress C (.string s) =
      (C.AccAddressFromBech32 s).map (Error.Wrap Error.ErrInvalidAddress) := by
  unfold validateContractAddress
  cases h : C.AccAddressFromBech32 s <;> simp only [h] <;> rfl

/-- C11: on a string that is not blank after `strings.TrimSpace`,
`validateBaseDenom` returns exactly what `sdk.ValidateDenom` returns on it: the
same error value, not wrapped, when the collaborator rejects, and nil when it
accepts. -/
theorem validateBaseDenom_returns_collaborator_result (C : Collaborators) (s : String)
    (h : TrimSpace s ≠ "") :
    validateBaseDenom C (.string s) = C.ValidateDenom s ∧
    (∀ e, C.ValidateDenom s = some e → validateBaseDenom C (.string s) = some e) ∧
    (C.ValidateDenom s = none → validateBaseDenom C (.string s) = none) := by
  have heq : validateBaseDenom C (.string s) = C.ValidateDenom s := by
    rw [validateBaseDenom_string, if_neg h]
  exact ⟨heq, fun e he => heq.trans he, fun hn => heq.trans hn⟩

/-- The witness of C11: `a` is not blank and the sample denomination check
rejects it; `validateBaseDenom` returns that very error. -/
theorem validateBaseDenom_returns_collaborator_result_witness :
    TrimSpace "a" ≠ "" ∧
    sampleCollaborators.ValidateDenom "a" = some (Error.new "invalid denom: a") ∧
    validateBaseDenom sampleCollaborators (.string "a") = some (Error.new "invalid denom: a") :=
  ⟨by decide, by decide,
   (validateBaseDenom_returns_collaborator_result sampleCollaborators "a" (by decide)).2.1
     (Error.new "invalid denom: a") (by decide)⟩

/-- C12: `validateContractAddress` returns nil on a string exactly when
`sdk.AccAddressFromBech32` parses it; when the parse fails, the result is
`ErrInvalidAddress` wrapped with the text of the parse failure. -/
theorem validateContractAddress_spec (C : Collaborators) (s : String) :
    (validateContractAddress C (.string s) = none ↔ C.AccAddressFromBech32 s = none) ∧
    (∀ msg, C.AccAddressFromBech32 s = some msg →
      validateContractAddress C (.string s) =
        some (Error.Wrap Error.ErrInvalidAddress msg)) := by
  rw [validateContractAddress_string]
  constructor
  · cases C.AccAddressFromBech32 s <;> simp
  · intro msg h
    rw [h]
    rfl

/-- The witness of C12: the sample address check parses the default contract
address and fails on the empty string. -/
theorem validateContractAddress_spec_witness :
    validateContractAddress sampleCollaborators (.string DefaultContractAddress) = none ∧
    validateContractAddress sampleCollaborators (.string "") =
      some (Error.Wrap Error.ErrInvalidAddress "decoding bech32 failed") :=
  ⟨(validateContractAddress_spec sampleCollaborators DefaultContractAddress).1.2
      sampleCollaborators_accept_defaults.1,
   (validateContractAddress_spec sampleCollaborators "").2 "decoding bech32 failed"
      (by decide)⟩

/-- C13: `validateFeeCaps` returns nil on every string, the empty one and the
ill-formed ones included. -/
theorem validateFeeCaps_accepts_every_string (s : String) :
    validateFeeCaps (.string s) = none ∧ validateFeeCaps (.string "") = none ∧
    validateFeeCaps (.string "not an amount") = none := by
  exact ⟨rfl, rfl, rfl⟩

/-- C14: a value whose dynamic type is not int32 makes `validateFeeRate` return
the `invalid parameter type` error, and a value whose dynamic type is not string
makes `validateFeeCaps`, `validateContractAddress` and `validateBaseDenom`
return it, whatever the collaborators are: no range, parse or syntax check is
reached. -/
theorem validators_reject_wrong_type (C : Collaborators) (v : Value) :
    ((∀ i, v ≠ .int32 i) →
      validateFeeRate v = some (Error.new ("invalid parameter type: " ++ v.typeName))) ∧
    ((∀ s, v ≠ .string s) →
      validateFeeCaps v = some (Error.new ("invalid parameter type: " ++ v.typeName)) ∧
      validateContractAddress C v =
        some (Error.new ("invalid parameter type: " ++ v.typeName)) ∧
      validateBaseDenom C v = some (Error.new ("invalid parameter type: " ++ v.typeName))) := by
  constructor
  · intro h
    cases v with
    | int32 i => exact absurd rfl (h i)
    | string s => rfl
    | other t => rfl
  · intro h
    cases v with
    | int32 i => exact ⟨rfl, rfl, rfl⟩
    | string s => exact absurd rfl (h s)
    | other t => exact ⟨rfl, rfl, rfl⟩

/-- The witness of C14: an int64 is not an int32, an int32 is not a string. -/
theorem validators_reject_wrong_type_witness :
    validateFeeRate (.other "int64") = some (Error.new "invalid parameter type: int64") ∧
    validateFeeRate (.string "50") = some (Error.new "invalid parameter type: string") ∧
    (validateFeeCaps (.int32 50) = some (Error.new "invalid parameter type: int32") ∧
     validateContractAddress sampleCollaborators (.int32 50) =
       some (Error.new "invalid parameter type: int32") ∧
     validateBaseDenom sampleCollaborators (.int32 50) =
       some (Error.new "invalid parameter type: int32")) :=
  ⟨(validators_reject_wrong_type sampleCollaborators (.other "int64")).1
      (fun _ h => Value.noConfusion h),
   (validators_reject_wrong_type sampleCollaborators (.string "50")).1
      (fun _ h => Value.noConfusion h),
   (validators_reject_wrong_type sampleCollaborators (.int32 50)).2
      (fun _ h => Value.noConfusion h)⟩

/-! ## The parameter set and the registry -/

/-- C15: `ParamSetPairs` is a list of exactly four triples, in the order
FeeRate, FeeCaps, ContractAddress, BaseDenom: the keys are these four names, the
slots hold the four fields of `p`, the validators are `validateFeeRate`,
`validateFeeCaps`, `validateContractAddress`, `validateBaseDenom`; keys and
validators are the same for any two parameter sets. -/
theorem ParamSetPairs_enumeration (C : Collaborators) (p q : Params) :
    (p.ParamSetPairs C).length = 4 ∧
    (p.ParamSetPairs C).map (fun psp => psp.Key) =
      ["FeeRate", "FeeCaps", "ContractAddress", "BaseDenom"] ∧
    (p.ParamSetPairs C).map (fun psp => psp.Value) =
      [.int32 p.FeeRate, .string p.FeeCaps, .string p.ContractAddress, .string p.BaseDenom] ∧
    (p.ParamSetPairs C).map (fun psp => psp.ValidatorFn) =
      [validateFeeRate, validateFeeCaps, validateContractAddress C, validateBaseDenom C] ∧
    (p.ParamSetPairs C).map (fun psp => psp.Key) =
      (q.ParamSetPairs C).map (fun psp => psp.Key) ∧
    (p.ParamSetPairs C).map (fun psp => psp.ValidatorFn) =
      (q.ParamSetPairs C).map (fun psp => psp.ValidatorFn) := by
  exact ⟨rfl, rfl, rfl, rfl, rfl, rfl⟩

/-- C16: `Validate` is the walk over `ParamSetPairs` in order, each pair's
validator applied to the current value of its slot, returning the first non-nil
error; hence `Validate` returns nil exactly when every declared pair accepts the
value of its slot. -/
theorem Validate_agrees_with_pairs (C : Collaborators) (p : Params) :
    p.Validate C =
      firstFailure ((p.ParamSetPairs C).map (fun psp => psp.ValidatorFn psp.Value)) ∧
    (p.Validate C = none ↔
      ∀ psp ∈ p.ParamSetPairs C, psp.ValidatorFn psp.Value = none) := by
  constructor
  · show p.Validate C =
      firstFailure
        [validateFeeRate (.int32 p.FeeRate), validateFeeCaps (.string p.FeeCaps),
         validateContractAddress C (.string p.ContractAddress),
         validateBaseDenom C (.string p.BaseDenom)]
    unfold Params.Validate
    cases validateFeeRate (.int32 p.FeeRate) <;>
      cases validateFeeCaps (.string p.FeeCaps) <;>
      cases validateContractAddress C (.string p.ContractAddress) <;>
      cases validateBaseDenom C (.string p.BaseDenom) <;> rfl
  · rw [Validate_eq_none_iff]
    simp [Params.ParamSetPairs, NewParamSetPair]

/-- C17: the four keys enumerated by `ParamSetPairs` are pairwise distinct, as
strings and as byte strings, and `ParamKeyTable` holds four entries, one per
key, with pairwise distinct keys. -/
theorem tax_keys_distinct (C : Collaborators) (p : Params) :
    ((p.ParamSetPairs C).map (fun psp => psp.Key)).Nodup ∧
    [KeyFeeRate, KeyFeeCaps, KeyContractAddress, KeyBaseDenom].Nodup ∧
    (p.ParamSetPairs C).map (fun psp => psp.Key) =
      [KeyFeeRate, KeyFeeCaps, KeyContractAddress, KeyBaseDenom] ∧
    (ParamKeyTable C).m.length = 4 ∧
    (ParamKeyTable C).m.map Prod.fst =
      [KeyFeeRate, KeyFeeCaps, KeyContractAddress, KeyBaseDenom] ∧
    ((ParamKeyTable C).m.map Prod.fst).Nodup ∧
    ([KeyFeeRate, KeyFeeCaps, KeyContractAddress, KeyBaseDenom].map
      (fun key => key.toUTF8.data.toList)).Nodup := by
  have hk : [KeyFeeRate, KeyFeeCaps, KeyContractAddress, KeyBaseDenom].Nodup := by decide
  exact ⟨hk, hk, rfl, rfl, rfl, hk, by decide⟩

/-- C18: every namespace registered before the call is registered after it,
and a registered subspace that was Bound before the call is Bound after it, to
the same key table. -/
theorem getLegacySubspaces_keeps_entries (C : Collaborators) (T : LegacyKeyTables)
    (k : Keeper) (n : String) (hn : n ∈ k.names) :
    n ∈ (getLegacySubspaces C T k).1.names ∧
    (∀ t, k.table n = some t → (getLegacySubspaces C T k).1.table n = some t) ∧
    ((k.table n).isSome = true → ((getLegacySubspaces C T k).1.table n).isSome = true) := by
  have hkeep : ∀ t, k.table n = some t → (getLegacySubspaces C T k).1.table n = some t := by
    intro t ht
    by_cases hp : n = baseapp.Paramspace
    · subst hp
      rw [getLegacySubspaces_table_Paramspace, if_pos hn, ht]
    · rw [getLegacySubspaces_table_ne C T k n hp, if_pos hn, ht]
  refine ⟨(mem_names_getLegacySubspaces C T k n).2 (Or.inl hn), hkeep, ?_⟩
  intro hs
  cases ht : k.table n with
  | none => rw [ht] at hs; cases hs
  | some t => rw [hkeep t ht]; rfl

/-- The witness of C18: on the registry whose `baseapp` subspace is Bound to the
key table of `auth`, the call panics, and the entry is still there, Bound as
before. -/
theorem getLegacySubspaces_keeps_entries_witness :
    "baseapp" ∈ baseappOtherKeeper.names ∧
    "baseapp" ∈ (getLegacySubspaces acceptAll sampleKeyTables baseappOtherKeeper).1.names ∧
    (getLegacySubspaces acceptAll sampleKeyTables baseappOtherKeeper).1.table "baseapp" =
      some sampleKeyTables.auth :=
  ⟨by decide,
   (getLegacySubspaces_keeps_entries acceptAll sampleKeyTables baseappOtherKeeper "baseapp"
      (by decide)).1,
   (getLegacySubspaces_keeps_entries acceptAll sampleKeyTables baseappOtherKeeper "baseapp"
      (by decide)).2.1 sampleKeyTables.auth (by decide)⟩

/-- C19: when the denomination collaborator rejects every blank string,
`validateBaseDenom` returns nil on a string exactly when the collaborator does:
the blank check changes the error, not the verdict. -/
theorem validateBaseDenom_same_verdict (C : Collaborators)
    (hC : ∀ s, isBlank s = true → C.ValidateDenom s ≠ none) (s : String) :
    validateBaseDenom C (.string s) = none ↔ C.ValidateDenom s = none := by
  rw [validateBaseDenom_string]
  by_cases h : TrimSpace s = ""
  · rw [if_pos h]
    have hr := hC s ((TrimSpace_eq_empty_iff s).1 h)
    constructor
    · intro h0; cases h0
    · intro h0; exact absurd h0 hr
  · rw [if_neg h]

/-- The witness of C19: with the sample denomination check, which rejects blank
strings, both sides accept `unls` and both reject the blank string. -/
theorem validateBaseDenom_same_verdict_witness :
    (∀ s, isBlank s = true → sampleCollaborators.ValidateDenom s ≠ none) ∧
    (validateBaseDenom sampleCollaborators (.string "unls") = none ↔
      sampleCollaborators.ValidateDenom "unls" = none) ∧
    (validateBaseDenom sampleCollaborators (.string " ") = none ↔
      sampleCollaborators.ValidateDenom " " = none) :=
  ⟨sampleValidateDenom_rejects_blank,
   validateBaseDenom_same_verdict sampleCollaborators sampleValidateDenom_rejects_blank "unls",
   validateBaseDenom_same_verdict sampleCollaborators sampleValidateDenom_rejects_blank " "⟩

end Nolus
